import Mathlib

/-!
Verification of vueuse browser composables: a shallow embedding of
`useClipboard`, `useFullscreen`, `useNetwork`, `useElementHover`,
`useActiveElement` and `useCssVar` from the repository source, with theorems
about the behaviour of each composable's event handlers and operations.

Stateful composables are modelled as explicit state-passing functions; the
browser platform (navigator, clipboard, fullscreen API variants, computed
styles) is an explicit parameter; `async` platform calls that may reject are
modelled by an explicit `rejected` flag or by the function being total when
the source wraps the call in try/catch; timers (`useTimeoutFn`, `setTimeout`)
are modelled as an optional scheduled fire time carried in the state.
-/

namespace Vueuse

/-! ## useClipboard (src/packages/core/useClipboard/index.ts) -/

/-- Options of `useClipboard`: the `legacy` fallback flag and the
`copiedDuring` reset delay (defaults: `false`, `1500`). The `read` and
`source` options do not affect the claims below. -/
structure ClipboardOptions where
  legacy : Bool
  copiedDuring : Nat
deriving DecidableEq

/-- Browser `PermissionState`. -/
inductive PermState where
  | granted
  | prompt
  | denied
deriving DecidableEq

/-- `isAllowed(status)`: `status === 'granted' || status === 'prompt'`
(`status` is `PermissionState | undefined`). -/
def isAllowed : Option PermState → Bool
  | some PermState.granted => true
  | some PermState.prompt => true
  | _ => false

/-- The platform facts `copy` consults: whether
`'clipboard' in navigator` (the `useSupported` check), the
`clipboard-write` permission, and whether `navigator.clipboard.writeText`
resolves. -/
structure ClipboardPlatform where
  clipboardApiSupported : Bool
  permissionWrite : Option PermState
  writeSucceeds : Bool
deriving DecidableEq

/-- `isSupported = computed(() => isClipboardApiSupported.value || legacy)`. -/
def isSupportedClipboard (o : ClipboardOptions) (p : ClipboardPlatform) : Bool :=
  p.clipboardApiSupported || o.legacy

/-- Reactive state of a `useClipboard` instance: the `text` and `copied`
shallow refs, and the pending `useTimeoutFn` deadline (absolute time at which
the `copied.value = false` callback fires), `none` when no timer is pending. -/
structure ClipboardState where
  text : String
  copied : Bool
  timerDeadline : Option Nat
deriving DecidableEq

/-- Initial state: `text = shallowRef('')`, `copied = shallowRef(false)`,
timeout created with `immediate: false` so no timer is pending. -/
def initClipboardState : ClipboardState :=
  { text := "", copied := false, timerDeadline := none }

/-- Platform side effects of one `copy` call: whether the modern
`navigator.clipboard.writeText` was invoked, and whether `legacyCopy`
(offscreen textarea + `document.execCommand('copy')`) was invoked. -/
structure CopyEffects where
  clipboardWriteAttempted : Bool
  legacyCopyInvoked : Bool
deriving DecidableEq

/-- No platform call made. -/
def noEffects : CopyEffects :=
  { clipboardWriteAttempted := false, legacyCopyInvoked := false }

/-- `copy(value)` of `useClipboard`, called at absolute time `now`.
Mirrors the source:
`if (isSupported.value && value != null) { let useLegacy = !(api && isAllowed(permissionWrite)); if (!useLegacy) try { await writeText(value) } catch { useLegacy = true }; if (useLegacy) legacyCopy(value); text.value = value; copied.value = true; timeout.start() }`.
The try/catch makes `copy` total (its promise never rejects), so the model
returns plain state and effects. `timeout.start()` replaces any pending
timer with a fresh deadline `now + copiedDuring`. -/
def copy (o : ClipboardOptions) (p : ClipboardPlatform) (now : Nat)
    (s : ClipboardState) (value : Option String) : ClipboardState × CopyEffects :=
  match value with
  | none => (s, noEffects)
  | some v =>
    if isSupportedClipboard o p then
      let modernAllowed := p.clipboardApiSupported && isAllowed p.permissionWrite
      let useLegacy := if modernAllowed then !p.writeSucceeds else true
      ({ text := v, copied := true, timerDeadline := some (now + o.copiedDuring) },
       { clipboardWriteAttempted := modernAllowed, legacyCopyInvoked := useLegacy })
    else
      (s, noEffects)

/-- The `useTimeoutFn` callback `() => copied.value = false` firing at time
`now`: it only runs if a timer is pending with deadline exactly `now`
(an earlier `timeout.start()` cleared any previously scheduled callback). -/
def copiedTimerFire (now : Nat) (s : ClipboardState) : ClipboardState :=
  match s.timerDeadline with
  | some d =>
    if d = now then { s with copied := false, timerDeadline := none } else s
  | none => s

/-! ## useFullscreen (src/unnamed/part_002) -/

/-- Platform facts `enter` / `exit` consult: the `useSupported` triple check
(`targetRef && document && requestMethod && exitMethod && fullscreenEnabled`),
the current result of `isElementFullScreen()` when `enter` runs, whether the
resolved exit / request method is defined and callable on the document or the
target (`document?.[m] != null` / `target?.[m] != null`), and whether the
awaited platform promise resolves. -/
structure FsPlatform where
  isSupported : Bool
  elementFullScreen : Bool
  exitMethodPresent : Bool
  requestMethodPresent : Bool
  exitSucceeds : Bool
  requestSucceeds : Bool
deriving DecidableEq

/-- Reactive state of a `useFullscreen` instance: the `isFullscreen` flag. -/
structure FsState where
  isFullscreen : Bool
deriving DecidableEq

/-- A platform fullscreen call made by `enter` / `exit`: the vendor-resolved
exit method on document/target, or the request method on the target. -/
inductive FsCall where
  | platformExit
  | platformRequest
deriving DecidableEq

/-- Result of awaiting `enter()` or `exit()`: the state afterwards, the
platform calls made in order, and whether the returned promise rejected
(neither function contains a try/catch, so a rejecting awaited call
propagates). -/
structure FsOutcome where
  state : FsState
  calls : List FsCall
  rejected : Bool
deriving DecidableEq

/-- `exit()` of `useFullscreen`:
`if (!isSupported.value || !isFullscreen.value) return; if (exitMethod.value) { await document[exitMethod]() (or target fallback) }; isFullscreen.value = false`.
A rejecting awaited exit call propagates before `isFullscreen` is assigned. -/
def exit (p : FsPlatform) (s : FsState) : FsOutcome :=
  if !p.isSupported || !s.isFullscreen then
    { state := s, calls := [], rejected := false }
  else if p.exitMethodPresent then
    if p.exitSucceeds then
      { state := { isFullscreen := false }, calls := [FsCall.platformExit], rejected := false }
    else
      { state := s, calls := [FsCall.platformExit], rejected := true }
  else
    { state := { isFullscreen := false }, calls := [], rejected := false }

/-- `enter()` of `useFullscreen`:
`if (!isSupported.value || isFullscreen.value) return; if (isElementFullScreen()) await exit(); const target = targetRef.value; if (requestMethod.value && target?.[requestMethod.value] != null) { await target[requestMethod.value](); isFullscreen.value = true }`.
There is no try/catch: a rejecting awaited call (from the inner `exit()` or
from the fullscreen request) propagates, and `isFullscreen.value = true` is
not reached. -/
def enter (p : FsPlatform) (s : FsState) : FsOutcome :=
  if !p.isSupported || s.isFullscreen then
    { state := s, calls := [], rejected := false }
  else
    let ex :=
      if p.elementFullScreen then exit p s
      else { state := s, calls := [], rejected := false }
    if ex.rejected then ex
    else if p.requestMethodPresent then
      if p.requestSucceeds then
        { state := { isFullscreen := true },
          calls := ex.calls ++ [FsCall.platformRequest], rejected := false }
      else
        { state := ex.state,
          calls := ex.calls ++ [FsCall.platformRequest], rejected := true }
    else
      { state := ex.state, calls := ex.calls, rejected := false }

/-! ## useNetwork (src/packages/core/useBrowserLocation/index.ts, second part) -/

/-- `NetworkEffectiveType` without the `undefined` case (held as `Option`). -/
inductive EffectiveType where
  | slow2g
  | twoG
  | threeG
  | fourG
deriving DecidableEq

/-- `NetworkType`. -/
inductive NetType where
  | bluetooth
  | cellular
  | ethernet
  | none
  | wifi
  | wimax
  | other
  | unknown
deriving DecidableEq

/-- The fields of a `NetworkInformation` object read by
`updateNetworkInformation` (each may be absent on a given browser, except
`type` which the declared types make total). -/
structure ConnInfo where
  downlink : Option Nat
  downlinkMax : Option Nat
  effectiveType : Option EffectiveType
  rtt : Option Nat
  saveData : Option Bool
  type : NetType
deriving DecidableEq

/-- Platform facts of `useNetwork`: whether `window?.navigator` exists and
whether `'connection' in navigator` holds (with `navigator.connection`
truthy). -/
structure NetPlatform where
  hasNavigator : Bool
  hasConnection : Bool
deriving DecidableEq

/-- `isSupported = useSupported(() => navigator && 'connection' in navigator)`.
The module-level `connection = isSupported.value && navigator.connection` is
truthy exactly when this is true. -/
def isSupportedNet (p : NetPlatform) : Bool :=
  p.hasNavigator && p.hasConnection

/-- Reactive state of a `useNetwork` instance (the shallow refs). -/
structure NetSt where
  isOnline : Bool
  saveData : Option Bool
  offlineAt : Option Nat
  onlineAt : Option Nat
  downlink : Option Nat
  downlinkMax : Option Nat
  rtt : Option Nat
  effectiveType : Option EffectiveType
  type : NetType
deriving DecidableEq

/-- Initial refs: `isOnline = shallowRef(true)`, `saveData = shallowRef(false)`,
`offlineAt/onlineAt/downlink/downlinkMax/rtt = shallowRef(undefined)`,
`effectiveType = shallowRef(undefined)`, `type = shallowRef('unknown')`. -/
def initNetSt : NetSt :=
  { isOnline := true, saveData := some false, offlineAt := none, onlineAt := none,
    downlink := none, downlinkMax := none, rtt := none,
    effectiveType := none, type := NetType.unknown }

/-- `updateNetworkInformation()` at time `now`, with `navigator.onLine`
reading `onLine` and the connection fields reading `info`:
`if (!navigator) return; isOnline.value = navigator.onLine; offlineAt.value = isOnline.value ? undefined : Date.now(); onlineAt.value = isOnline.value ? Date.now() : undefined; if (connection) { downlink/downlinkMax/effectiveType/rtt/saveData/type := connection.* }`. -/
def updateNetworkInformation (p : NetPlatform) (now : Nat) (onLine : Bool)
    (info : ConnInfo) (s : NetSt) : NetSt :=
  if !p.hasNavigator then s
  else
    let s1 := { s with isOnline := onLine,
                       offlineAt := if onLine then Option.none else some now,
                       onlineAt := if onLine then some now else Option.none }
    if isSupportedNet p then
      { s1 with downlink := info.downlink, downlinkMax := info.downlinkMax,
                effectiveType := info.effectiveType, rtt := info.rtt,
                saveData := info.saveData, type := info.type }
    else s1

/-- Events a `useNetwork` instance reacts to after initialization: the window
`offline` / `online` events (always listened for when a window exists), and
the connection `change` event (whose listener exists only when `connection`
is truthy). -/
inductive NetEvent where
  | offline (t : Nat)
  | online (t : Nat)
  | change (t : Nat) (onLine : Bool) (info : ConnInfo)
deriving DecidableEq

/-- One event handler step of `useNetwork`. -/
def netStep (p : NetPlatform) (s : NetSt) : NetEvent → NetSt
  | NetEvent.offline t => { s with isOnline := false, offlineAt := some t }
  | NetEvent.online t => { s with isOnline := true, onlineAt := some t }
  | NetEvent.change t onLine info =>
    if isSupportedNet p then updateNetworkInformation p t onLine info s else s

/-- Process a sequence of events. -/
def netRun (p : NetPlatform) (s : NetSt) : List NetEvent → NetSt
  | [] => s
  | e :: evs => netRun p (netStep p s e) evs

/-- State of a `useNetwork` instance right after creation: the initial refs
followed by the eager `updateNetworkInformation()` call. -/
def useNetworkInit (p : NetPlatform) (now : Nat) (onLine : Bool)
    (info : ConnInfo) : NetSt :=
  updateNetworkInformation p now onLine info initNetSt

/-! ## useElementHover (src/unnamed/part_001) -/

/-- Options of `useElementHover`: `delayEnter` and `delayLeave`
(defaults `0`). -/
structure HoverOptions where
  delayEnter : Nat
  delayLeave : Nat
deriving DecidableEq

/-- `entering ? delayEnter : delayLeave`. -/
def delayFor (o : HoverOptions) (entering : Bool) : Nat :=
  if entering then o.delayEnter else o.delayLeave

/-- Reactive state of a `useElementHover` instance: the `isHovered` shallow
ref and the single `timer` handle, modelled as the scheduled absolute fire
time together with the `entering` value the callback will write. -/
structure HoverState where
  isHovered : Bool
  timer : Option (Nat × Bool)
deriving DecidableEq

/-- Initial state: `isHovered = shallowRef(false)`, no timer. -/
def initHover : HoverState :=
  { isHovered := false, timer := none }

/-- `toggle(entering)` at time `now`:
`const delay = entering ? delayEnter : delayLeave; if (timer) { clearTimeout(timer); timer = undefined }; if (delay) timer = setTimeout(() => isHovered.value = entering, delay); else isHovered.value = entering`.
Any pending timer is always discarded before the branch. -/
def toggle (o : HoverOptions) (now : Nat) (s : HoverState) (entering : Bool) : HoverState :=
  let delay := delayFor o entering
  if delay ≠ 0 then
    { isHovered := s.isHovered, timer := some (now + delay, entering) }
  else
    { isHovered := entering, timer := none }

/-- The `setTimeout` callback `() => isHovered.value = entering` firing at
time `now`: it runs only if the pending timer's scheduled time is exactly
`now` (a cleared timer never fires). -/
def hoverFire (now : Nat) (s : HoverState) : HoverState :=
  match s.timer with
  | some (ft, b) =>
    if ft = now then { isHovered := b, timer := none } else s
  | none => s

/-- Events of a `useElementHover` instance: the `mouseenter` / `mouseleave`
handlers (`toggle(true)` / `toggle(false)`) and a timer callback firing. -/
inductive HoverEvent where
  | enter (t : Nat)
  | leave (t : Nat)
  | fire (t : Nat)
deriving DecidableEq

/-- One event step. -/
def hoverStep (o : HoverOptions) (s : HoverState) : HoverEvent → HoverState
  | HoverEvent.enter t => toggle o t s true
  | HoverEvent.leave t => toggle o t s false
  | HoverEvent.fire t => hoverFire t s

/-- Process a sequence of events. -/
def hoverRun (o : HoverOptions) (s : HoverState) : List HoverEvent → HoverState
  | [] => s
  | e :: evs => hoverRun o (hoverStep o s e) evs

/-- The last `enter`/`leave` event in a list, as (time, entering). -/
def lastToggle : List HoverEvent → Option (Nat × Bool)
  | [] => none
  | e :: rest =>
    match lastToggle rest with
    | some r => some r
    | none =>
      match e with
      | HoverEvent.enter t => some (t, true)
      | HoverEvent.leave t => some (t, false)
      | HoverEvent.fire _ => none

/-! ## useActiveElement (src/unnamed/part_000) -/

/-- A DOM element as seen by `getDeepActiveElement`: it either has no shadow
root, a shadow root whose `activeElement` is null, or a shadow root whose
`activeElement` is a further element. -/
inductive DomElem where
  | leaf (id : Nat)
  | shadowEmpty (id : Nat)
  | shadowWith (id : Nat) (inner : DomElem)
deriving DecidableEq

/-- The loop `while (element?.shadowRoot) element = element.shadowRoot.activeElement`
starting from a non-null element. -/
def descendElem : DomElem → Option DomElem
  | DomElem.leaf i => some (DomElem.leaf i)
  | DomElem.shadowEmpty _ => none
  | DomElem.shadowWith _ inner => descendElem inner

/-- `getDeepActiveElement()`: starts from `document?.activeElement`
(the `active` argument) and descends through shadow roots only when `deep`. -/
def getDeepActiveElement (deep : Bool) (active : Option DomElem) : Option DomElem :=
  if deep then
    match active with
    | none => none
    | some e => descendElem e
  else active

/-- A window focus/blur event as seen by the `useActiveElement` listeners;
each carries the platform's `document.activeElement` at the moment the
handler runs (read by `trigger()`), and blur carries `event.relatedTarget`. -/
inductive FocusEv where
  | focus (active : Option DomElem)
  | blur (relatedTarget : Option DomElem) (active : Option DomElem)
deriving DecidableEq

/-- One listener step of `useActiveElement`: the blur handler returns without
updating when `event.relatedTarget !== null`, otherwise (and on every focus)
`trigger()` sets the tracked ref to `getDeepActiveElement()`. -/
def activeElementStep (deep : Bool) (tracked : Option DomElem) : FocusEv → Option DomElem
  | FocusEv.focus active => getDeepActiveElement deep active
  | FocusEv.blur relatedTarget active =>
    if relatedTarget.isSome then tracked
    else getDeepActiveElement deep active

/-! ## useCssVar (src/unnamed/part_003) -/

/-- An element's inline style declaration, as an association list of custom
properties. -/
abbrev Style := List (String × String)

/-- `el.style.removeProperty(p)`. -/
def removeProperty (p : String) (st : Style) : Style :=
  st.filter (fun kv => kv.1 ≠ p)

/-- `el.style.setProperty(p, v)`. -/
def setProperty (p v : String) (st : Style) : Style :=
  (p, v) :: removeProperty p st

/-- Look up a property on a style declaration. -/
def getPropertyValueOf (st : Style) (p : String) : Option String :=
  (st.find? (fun kv => kv.1 == p)).map (fun kv => kv.2)

/-- The write watcher of `useCssVar` (`watch([variable, elRef], ...)`),
given the current property name (`toValue(prop)`) and the new ref value:
`if (el?.style && raw_prop) { if (val == null) el.style.removeProperty(raw_prop); else el.style.setProperty(raw_prop, val) }`.
The element is assumed present (its `Style` is the argument). -/
def cssVarWriteEffect (prop : Option String) (val : Option String) (st : Style) : Style :=
  match prop with
  | some p =>
    match val with
    | none => removeProperty p st
    | some v => setProperty p v st
  | none => st

/-- Drop leading whitespace characters from a character list. -/
def dropLeadingWS : List Char → List Char
  | [] => []
  | c :: cs => if c.isWhitespace then dropLeadingWS cs else c :: cs

/-- JavaScript `String.prototype.trim`: strip whitespace from both ends. -/
def jsTrim (s : String) : String :=
  String.mk (((dropLeadingWS s.data).reverse |> dropLeadingWS).reverse)

/-- JavaScript `a || b` on `string | undefined` values: `a` is falsy exactly
when it is `undefined` or the empty string. -/
def jsOrString : Option String → Option String → Option String
  | some s, b => if s = "" then b else some s
  | none, b => b

/-- The value assigned by `updateCssVar()` when the guard
`el && window && key` holds:
`const value = window.getComputedStyle(el).getPropertyValue(key)?.trim(); variable.value = value || variable.value || initialValue`,
where `raw` is the computed style string and `prev` the ref's current value. -/
def updateCssVarValue (initialValue : Option String) (prev : Option String)
    (raw : String) : Option String :=
  jsOrString (some (jsTrim raw)) (jsOrString prev initialValue)

/-- Iterate `updateCssVar` over a sequence of computed-style readings. -/
def runReadings (initialValue : Option String) (prev : Option String) :
    List String → Option String
  | [] => prev
  | r :: rs => runReadings initialValue (updateCssVarValue initialValue prev r) rs

/-- The last reading in the list whose trim is non-empty, trimmed. -/
def lastNonEmptyReading : List String → Option String
  | [] => none
  | r :: rs =>
    match lastNonEmptyReading rs with
    | some v => some v
    | none => if (jsTrim r) = "" then none else some (jsTrim r)

/-- The connection-quality part of a `useNetwork` state is still at its
initial refs: the four optional metrics unset, `saveData` at its initial
`false`, `type` at its initial `'unknown'`. -/
def qualityUntouched (s : NetSt) : Prop :=
  s.downlink = none ∧ s.downlinkMax = none ∧ s.effectiveType = none ∧
  s.rtt = none ∧ s.saveData = some false ∧ s.type = NetType.unknown

instance (s : NetSt) : Decidable (qualityUntouched s) := by
  unfold qualityUntouched; infer_instance

/-! ## Theorems -/

theorem getPropertyValueOf_removeProperty (p : String) (st : Style) :
    getPropertyValueOf (removeProperty p st) p = none := by
  induction st with
  | nil => rfl
  | cons kv t ih =>
    by_cases h : kv.1 = p
    · rw [show removeProperty p (kv :: t) = removeProperty p t by
        simp [removeProperty, h]]
      exact ih
    · rw [show removeProperty p (kv :: t) = kv :: removeProperty p t by
        simp [removeProperty, h]]
      rw [show getPropertyValueOf (kv :: removeProperty p t) p
            = getPropertyValueOf (removeProperty p t) p by
        have hb : (kv.1 == p) = false := by simp [h]
        simp [getPropertyValueOf, List.find?, hb]]
      exact ih

/-- C8: setting the value returned by `useCssVar` to null removes the
underlying custom property from the target element; setting it to a string
sets the property on the target element to exactly that string. -/
theorem useCssVar_write_set_remove (p v : String) (st : Style) :
    getPropertyValueOf (cssVarWriteEffect (some p) none st) p = none ∧
    getPropertyValueOf (cssVarWriteEffect (some p) (some v) st) p = some v := by
  constructor
  · simpa [cssVarWriteEffect] using getPropertyValueOf_removeProperty p st
  · simp [cssVarWriteEffect, setProperty, getPropertyValueOf, List.find?]

/-- C10: calling `copy(value)` when the instance is unsupported or when the
resolved value is null resolves without error (`copy` is total) and leaves
the tracked text, the copied flag and the timer unchanged, and makes no
platform clipboard call (neither a modern write nor a legacy copy). -/
theorem useClipboard_copy_noop (o : ClipboardOptions) (p : ClipboardPlatform)
    (now : Nat) (s : ClipboardState) (value : Option String)
    (h : isSupportedClipboard o p = false ∨ value = none) :
    copy o p now s value = (s, noEffects) := by
  cases value with
  | none => rfl
  | some v =>
    rcases h with h | h
    · simp [copy, h]
    · exact absurd h (by simp)

/-- Witness for C10 at an unsupported instance. -/
theorem useClipboard_copy_noop_witness :
    copy { legacy := false, copiedDuring := 1500 }
      { clipboardApiSupported := false, permissionWrite := none, writeSucceeds := true }
      0 initClipboardState (some "x") = (initClipboardState, noEffects) :=
  useClipboard_copy_noop _ _ 0 initClipboardState (some "x") (Or.inl rfl)

/-- C3 counterexample: an instance created with `legacy = false` whose modern
clipboard write is permitted but fails still invokes the legacy copy path,
contradicting the claim that with `legacy = false` the legacy copy is never
invoked. -/
theorem useClipboard_legacy_counterexample :
    (copy { legacy := false, copiedDuring := 1500 }
      { clipboardApiSupported := true, permissionWrite := some PermState.granted,
        writeSucceeds := false }
      0 initClipboardState (some "x")).2.legacyCopyInvoked = true := rfl

/-- C3 amended: on a supported instance, `copy` invokes the legacy copy path
exactly when the modern path is unavailable, not permitted, or fails —
irrespective of the `legacy` option; the `legacy` option only widens
`isSupported`, so with `legacy = false` and no clipboard API `copy` is a
complete no-op (which is the only way `legacy = false` avoids the legacy
path). -/
theorem useClipboard_legacy_fallback (o : ClipboardOptions) (p : ClipboardPlatform)
    (now : Nat) (s : ClipboardState) (v : String) :
    (isSupportedClipboard o p = true →
      (copy o p now s (some v)).2.legacyCopyInvoked
        = !((p.clipboardApiSupported && isAllowed p.permissionWrite) && p.writeSucceeds)) ∧
    (o.legacy = false → p.clipboardApiSupported = false →
      copy o p now s (some v) = (s, noEffects)) := by
  constructor
  · intro hsup
    cases hma : p.clipboardApiSupported && isAllowed p.permissionWrite with
    | false => simp [copy, hsup, hma]
    | true => simp [copy, hsup, hma]
  · intro h1 h2
    simp [copy, isSupportedClipboard, h1, h2]

/-- Witness for C3's amended theorem: with `legacy = true` and no clipboard
API, `copy` takes the legacy path. -/
theorem useClipboard_legacy_fallback_witness :
    (copy { legacy := true, copiedDuring := 1500 }
      { clipboardApiSupported := false, permissionWrite := none, writeSucceeds := true }
      0 initClipboardState (some "x")).2.legacyCopyInvoked = true :=
  (useClipboard_legacy_fallback { legacy := true, copiedDuring := 1500 }
    { clipboardApiSupported := false, permissionWrite := none, writeSucceeds := true }
    0 initClipboardState "x").1 rfl

/-- C7: a blur event whose `relatedTarget` is non-null leaves the tracked
element unchanged; a blur with null `relatedTarget` and every focus event
recompute the tracked element to the platform's reported focused element,
descended through nested shadow roots when `deep` is enabled. -/
theorem useActiveElement_blur_focus (deep : Bool)
    (tracked relatedTarget active : Option DomElem) :
    (relatedTarget.isSome = true →
      activeElementStep deep tracked (FocusEv.blur relatedTarget active) = tracked) ∧
    (activeElementStep deep tracked (FocusEv.blur none active)
      = getDeepActiveElement deep active) ∧
    (activeElementStep deep tracked (FocusEv.focus active)
      = getDeepActiveElement deep active) ∧
    (∀ (i : Nat) (inner : DomElem),
      getDeepActiveElement true (some (DomElem.shadowWith i inner)) = descendElem inner) := by
  refine ⟨?_, rfl, rfl, ?_⟩
  · intro h
    simp [activeElementStep, h]
  · intro i inner
    simp [getDeepActiveElement, descendElem]

/-- Witness for C7: a blur to a same-page element is ignored. -/
theorem useActiveElement_blur_focus_witness :
    activeElementStep true (some (DomElem.leaf 1))
      (FocusEv.blur (some (DomElem.leaf 2)) (some (DomElem.leaf 3)))
      = some (DomElem.leaf 1) :=
  (useActiveElement_blur_focus true (some (DomElem.leaf 1)) (some (DomElem.leaf 2))
    (some (DomElem.leaf 3))).1 rfl

/-- C5: on a supported instance, `copy(v)` with a non-null `v` sets the
tracked text to exactly `v` and `copied` to `true`, and schedules the reset
timer at `now + copiedDuring`; firing that timer resets `copied` to `false`;
a further `copy` restarts the timer (new deadline `now' + copiedDuring`), so
the original deadline no longer fires and the flag stays `true` there. -/
theorem useClipboard_copy_sets_and_resets (o : ClipboardOptions) (p : ClipboardPlatform)
    (now : Nat) (s : ClipboardState) (v : String)
    (hsup : isSupportedClipboard o p = true) :
    (copy o p now s (some v)).1.text = v ∧
    (copy o p now s (some v)).1.copied = true ∧
    (copy o p now s (some v)).1.timerDeadline = some (now + o.copiedDuring) ∧
    (copiedTimerFire (now + o.copiedDuring) (copy o p now s (some v)).1).copied = false ∧
    (∀ (now' : Nat) (v' : String),
      (copy o p now' (copy o p now s (some v)).1 (some v')).1.timerDeadline
        = some (now' + o.copiedDuring) ∧
      (now' ≠ now →
        (copiedTimerFire (now + o.copiedDuring)
          (copy o p now' (copy o p now s (some v)).1 (some v')).1).copied = true)) := by
  refine ⟨by simp [copy, hsup], by simp [copy, hsup], by simp [copy, hsup],
    by simp [copy, hsup, copiedTimerFire], ?_⟩
  intro now' v'
  refine ⟨by simp [copy, hsup], ?_⟩
  intro hne
  have hdl : now' + o.copiedDuring ≠ now + o.copiedDuring := by
    intro hc
    exact hne (Nat.add_right_cancel hc)
  simp [copy, hsup, copiedTimerFire, hdl]

/-- Witness for C5 at a concrete supported instance. -/
theorem useClipboard_copy_sets_and_resets_witness :
    (copy { legacy := false, copiedDuring := 1500 }
      { clipboardApiSupported := true, permissionWrite := some PermState.granted,
        writeSucceeds := true }
      0 initClipboardState (some "x")).1.copied = true ∧
    (copiedTimerFire (0 + 1500)
      (copy { legacy := false, copiedDuring := 1500 }
        { clipboardApiSupported := true, permissionWrite := some PermState.granted,
          writeSucceeds := true }
        0 initClipboardState (some "x")).1).copied = false ∧
    (copiedTimerFire (0 + 1500)
      (copy { legacy := false, copiedDuring := 1500 }
        { clipboardApiSupported := true, permissionWrite := some PermState.granted,
          writeSucceeds := true }
        700
        (copy { legacy := false, copiedDuring := 1500 }
          { clipboardApiSupported := true, permissionWrite := some PermState.granted,
            writeSucceeds := true }
          0 initClipboardState (some "x")).1 (some "y")).1).copied = true := by
  have h := useClipboard_copy_sets_and_resets { legacy := false, copiedDuring := 1500 }
    { clipboardApiSupported := true, permissionWrite := some PermState.granted,
      writeSucceeds := true }
    0 initClipboardState "x" rfl
  exact ⟨h.2.1, h.2.2.2.1, (h.2.2.2.2 700 "y").2 (by decide)⟩

/-- C2 counterexample: a supported controller with `isFullscreen = false`,
on a page already fullscreen for a different element, makes only the platform
fullscreen request when `enter()` runs — no platform exit call precedes it. -/
theorem useFullscreen_enter_no_exit_counterexample :
    (enter { isSupported := true, elementFullScreen := true, exitMethodPresent := true,
             requestMethodPresent := true, exitSucceeds := true, requestSucceeds := true }
      { isFullscreen := false }).calls = [FsCall.platformRequest] := rfl

/-- C2 amended: when `enter()` runs with the controller's own `isFullscreen`
false, the `exit()` helper it calls returns immediately (its own
`!isFullscreen.value` guard fires) without invoking any platform exit method,
so no platform exit call ever occurs during such an `enter()` — only the
fullscreen request on the target is issued. -/
theorem useFullscreen_enter_exit_skipped (p : FsPlatform) (s : FsState)
    (h : s.isFullscreen = false) :
    exit p s = { state := s, calls := [], rejected := false } ∧
    FsCall.platformExit ∉ (enter p s).calls := by
  obtain ⟨b⟩ := s
  cases h
  constructor
  · simp [exit]
  · cases hsup : p.isSupported <;> cases hel : p.elementFullScreen <;>
      cases hreq : p.requestMethodPresent <;> cases hrs : p.requestSucceeds <;>
      simp [enter, exit, hsup, hel, hreq, hrs]

/-- Witness for C2's amended theorem at a concrete platform. -/
theorem useFullscreen_enter_exit_skipped_witness :
    exit { isSupported := true, elementFullScreen := true, exitMethodPresent := true,
           requestMethodPresent := true, exitSucceeds := true, requestSucceeds := true }
      { isFullscreen := false }
      = { state := { isFullscreen := false }, calls := [], rejected := false } ∧
    FsCall.platformExit ∉
      (enter { isSupported := true, elementFullScreen := true, exitMethodPresent := true,
               requestMethodPresent := true, exitSucceeds := true, requestSucceeds := true }
        { isFullscreen := false }).calls :=
  useFullscreen_enter_exit_skipped
    { isSupported := true, elementFullScreen := true, exitMethodPresent := true,
      requestMethodPresent := true, exitSucceeds := true, requestSucceeds := true }
    { isFullscreen := false } rfl

/-- C4 counterexample: a rejecting platform fullscreen request makes the
promise returned by `enter()` reject (there is no local catch), contradicting
the claim that `enter()` resolves. -/
theorem useFullscreen_enter_rejects_counterexample :
    (enter { isSupported := true, elementFullScreen := false, exitMethodPresent := true,
             requestMethodPresent := true, exitSucceeds := true, requestSucceeds := false }
      { isFullscreen := false }).rejected = true := rfl

/-- C4 amended: if the platform fullscreen request issued by `enter()`
rejects, the rejection propagates (the promise returned by `enter()`
rejects — it is not caught locally), though `isFullscreen` does stay false;
a rejecting clipboard write inside `copy()` is caught and diverted to the
legacy fallback path rather than propagated (`copy` is total). -/
theorem useFullscreen_enter_rejection (p : FsPlatform)
    (h1 : p.isSupported = true) (h2 : p.elementFullScreen = false)
    (h3 : p.requestMethodPresent = true) (h4 : p.requestSucceeds = false) :
    ((enter p { isFullscreen := false }).rejected = true ∧
     (enter p { isFullscreen := false }).state.isFullscreen = false) ∧
    (∀ (o : ClipboardOptions) (q : ClipboardPlatform) (now : Nat)
       (s : ClipboardState) (v : String),
      q.clipboardApiSupported = true → isAllowed q.permissionWrite = true →
      q.writeSucceeds = false →
      (copy o q now s (some v)).2.legacyCopyInvoked = true) := by
  constructor
  · constructor <;> simp [enter, h1, h2, h3, h4]
  · intro o q now s v hapi hperm hws
    have hsup : isSupportedClipboard o q = true := by
      simp [isSupportedClipboard, hapi]
    simp [copy, hsup, hapi, hperm, hws]

/-- Witness for C4's amended theorem at a concrete platform. -/
theorem useFullscreen_enter_rejection_witness :
    ((enter { isSupported := true, elementFullScreen := false, exitMethodPresent := true,
              requestMethodPresent := true, exitSucceeds := true, requestSucceeds := false }
       { isFullscreen := false }).rejected = true ∧
     (enter { isSupported := true, elementFullScreen := false, exitMethodPresent := true,
              requestMethodPresent := true, exitSucceeds := true, requestSucceeds := false }
       { isFullscreen := false }).state.isFullscreen = false) ∧
    (copy { legacy := false, copiedDuring := 1500 }
      { clipboardApiSupported := true, permissionWrite := some PermState.prompt,
        writeSucceeds := false }
      3 initClipboardState (some "z")).2.legacyCopyInvoked = true := by
  have h := useFullscreen_enter_rejection
    { isSupported := true, elementFullScreen := false, exitMethodPresent := true,
      requestMethodPresent := true, exitSucceeds := true, requestSucceeds := false }
    rfl rfl rfl rfl
  exact ⟨h.1, h.2 { legacy := false, copiedDuring := 1500 }
    { clipboardApiSupported := true, permissionWrite := some PermState.prompt,
      writeSucceeds := false }
    3 initClipboardState "z" rfl rfl rfl⟩

theorem netStep_qualityUntouched (p : NetPlatform) (h : isSupportedNet p = false)
    (s : NetSt) (e : NetEvent) (hq : qualityUntouched s) :
    qualityUntouched (netStep p s e) := by
  cases e with
  | offline t => exact hq
  | online t => exact hq
  | change t onLine info => simpa [netStep, h] using hq

theorem netRun_qualityUntouched (p : NetPlatform) (h : isSupportedNet p = false)
    (evs : List NetEvent) :
    ∀ (s : NetSt), qualityUntouched s → qualityUntouched (netRun p s evs) := by
  induction evs with
  | nil => intro s hq; exact hq
  | cons e evs ih =>
    intro s hq
    exact ih (netStep p s e) (netStep_qualityUntouched p h s e hq)

/-- C1 amended: on a `useNetwork` instance whose `isSupported` is false,
the four optional connection-quality metrics (`downlink`, `downlinkMax`,
`effectiveType`, `rtt`) are undefined initially and remain undefined after
every sequence of online/offline events and connection-change updates;
`saveData` and `type`, however, are not undefined — they are initialized to
`false` and `'unknown'` respectively, and likewise keep those initial values
throughout. -/
theorem useNetwork_unsupported_quality (p : NetPlatform)
    (h : isSupportedNet p = false) (now : Nat) (onLine : Bool) (info : ConnInfo)
    (evs : List NetEvent) :
    qualityUntouched (netRun p (useNetworkInit p now onLine info) evs) := by
  apply netRun_qualityUntouched p h
  unfold useNetworkInit updateNetworkInformation
  cases hn : p.hasNavigator with
  | false => simp [initNetSt, qualityUntouched]
  | true => simp [hn, h, initNetSt, qualityUntouched]

/-- Witness for C1's amended theorem: an unsupported platform going offline,
online, and receiving a (never-listened-for) connection change. -/
theorem useNetwork_unsupported_quality_witness :
    qualityUntouched (netRun { hasNavigator := true, hasConnection := false }
      (useNetworkInit { hasNavigator := true, hasConnection := false } 0 true
        { downlink := none, downlinkMax := none, effectiveType := none, rtt := none,
          saveData := none, type := NetType.unknown })
      [NetEvent.offline 1, NetEvent.online 2,
       NetEvent.change 3 false
         { downlink := some 10, downlinkMax := some 100,
           effectiveType := some EffectiveType.fourG, rtt := some 50,
           saveData := some true, type := NetType.wifi }]) :=
  useNetwork_unsupported_quality { hasNavigator := true, hasConnection := false }
    rfl 0 true
    { downlink := none, downlinkMax := none, effectiveType := none, rtt := none,
      saveData := none, type := NetType.unknown }
    [NetEvent.offline 1, NetEvent.online 2,
     NetEvent.change 3 false
       { downlink := some 10, downlinkMax := some 100,
         effectiveType := some EffectiveType.fourG, rtt := some 50,
         saveData := some true, type := NetType.wifi }]

/-- C1 counterexample: on an unsupported platform the initial `saveData` ref
holds `false`, not undefined — so not all of the six listed
connection-quality fields are undefined. -/
theorem useNetwork_saveData_counterexample :
    (useNetworkInit { hasNavigator := true, hasConnection := false } 0 true
      { downlink := none, downlinkMax := none, effectiveType := none, rtt := none,
        saveData := none, type := NetType.unknown }).saveData = some false ∧
    (useNetworkInit { hasNavigator := true, hasConnection := false } 0 true
      { downlink := none, downlinkMax := none, effectiveType := none, rtt := none,
        saveData := none, type := NetType.unknown }).saveData ≠ none := by
  constructor <;> decide

theorem jsOrString_self (x : Option String) : jsOrString x x = x := by
  cases x with
  | none => rfl
  | some s =>
    by_cases h : s = "" <;> simp [jsOrString, h]

theorem runReadings_retention (init : Option String) (readings : List String) :
    ∀ (prev : Option String),
      (prev = init ∨ ∃ v, prev = some v ∧ v ≠ "") →
      runReadings init prev readings =
        match lastNonEmptyReading readings with
        | some v => some v
        | none => prev := by
  induction readings with
  | nil => intro prev _; rfl
  | cons r rs ih =>
    intro prev hok
    by_cases hr : (jsTrim r) = ""
    · have hstep : updateCssVarValue init prev r = prev := by
        rcases hok with h | ⟨v, hv, hne⟩
        · subst h
          have h1 : updateCssVarValue prev prev r
              = jsOrString (some (jsTrim r)) (jsOrString prev prev) := rfl
          rw [h1, jsOrString_self, hr]
          simp [jsOrString]
        · subst hv
          simp [updateCssVarValue, jsOrString, hr, hne]
      rw [show runReadings init prev (r :: rs)
            = runReadings init (updateCssVarValue init prev r) rs from rfl, hstep]
      rw [ih prev hok]
      cases hlast : lastNonEmptyReading rs <;> simp [lastNonEmptyReading, hlast, hr]
    · have hstep : updateCssVarValue init prev r = some (jsTrim r) := by
        simp [updateCssVarValue, jsOrString, hr]
      rw [show runReadings init prev (r :: rs)
            = runReadings init (updateCssVarValue init prev r) rs from rfl, hstep]
      rw [ih (some (jsTrim r)) (Or.inr ⟨(jsTrim r), rfl, hr⟩)]
      cases hlast : lastNonEmptyReading rs <;> simp [lastNonEmptyReading, hlast, hr]

/-- C9: when the computed style value of the property trims to empty,
`updateCssVar` retains the previous ref value (when that is a non-empty
string) or falls back to the configured `initialValue` (when there is no
previous value); consequently, starting from `initialValue`, after any
sequence of computed-style readings the ref holds the last non-empty
(trimmed) reading, or `initialValue` if there was none. -/
theorem useCssVar_read_retention (init prev : Option String) (raw : String) :
    ((jsTrim raw) = "" → ∀ v, prev = some v → v ≠ "" →
      updateCssVarValue init prev raw = prev) ∧
    ((jsTrim raw) = "" → prev = none → updateCssVarValue init prev raw = init) ∧
    (∀ readings : List String,
      runReadings init init readings =
        match lastNonEmptyReading readings with
        | some v => some v
        | none => init) := by
  refine ⟨?_, ?_, ?_⟩
  · intro hr v hv hne
    subst hv
    simp [updateCssVarValue, jsOrString, hr, hne]
  · intro hr hp
    subst hp
    simp [updateCssVarValue, jsOrString, hr]
  · intro readings
    exact runReadings_retention init readings init (Or.inl rfl)

/-- Witness for C9 at a concrete empty reading. -/
theorem useCssVar_read_retention_witness :
    updateCssVarValue (some "a") (some "b") "" = some "b" :=
  (useCssVar_read_retention (some "a") (some "b") "").1 (by decide) "b" rfl (by decide)

theorem hoverRun_snoc (o : HoverOptions) (evs : List HoverEvent) (e : HoverEvent) :
    ∀ s : HoverState, hoverRun o s (evs ++ [e]) = hoverStep o (hoverRun o s evs) e := by
  induction evs with
  | nil => intro s; rfl
  | cons e' evs ih =>
    intro s
    exact ih (hoverStep o s e')

theorem hoverRun_timer_inv (o : HoverOptions) (evs : List HoverEvent) :
    ∀ (s : HoverState) (ft : Nat) (b : Bool),
      (hoverRun o s evs).timer = some (ft, b) →
      (∃ t, lastToggle evs = some (t, b) ∧ ft = t + delayFor o b) ∨
      (lastToggle evs = none ∧ s.timer = some (ft, b)) := by
  induction evs with
  | nil =>
    intro s ft b h
    exact Or.inr ⟨rfl, h⟩
  | cons e evs ih =>
    intro s ft b h
    rcases ih (hoverStep o s e) ft b h with ⟨t, hlt, hft⟩ | ⟨hnone, htimer⟩
    · exact Or.inl ⟨t, by simp [lastToggle, hlt], hft⟩
    · cases e with
      | enter t' =>
        by_cases hd : delayFor o true ≠ 0
        · have : ft = t' + delayFor o true ∧ b = true := by
            simp [hoverStep, toggle, hd] at htimer
            exact ⟨htimer.1.symm, htimer.2⟩
          rcases this with ⟨h1, h2⟩
          subst h1; subst h2
          exact Or.inl ⟨t', by simp [lastToggle, hnone], rfl⟩
        · simp [hoverStep, toggle, hd] at htimer
      | leave t' =>
        by_cases hd : delayFor o false ≠ 0
        · have : ft = t' + delayFor o false ∧ b = false := by
            simp [hoverStep, toggle, hd] at htimer
            exact ⟨htimer.1.symm, htimer.2⟩
          rcases this with ⟨h1, h2⟩
          subst h1; subst h2
          exact Or.inl ⟨t', by simp [lastToggle, hnone], rfl⟩
        · simp [hoverStep, toggle, hd] at htimer
      | fire t' =>
        refine Or.inr ⟨by simp [lastToggle, hnone], ?_⟩
        cases hst : s.timer with
        | none => simp [hoverStep, hoverFire, hst] at htimer
        | some pb =>
          obtain ⟨ft', b'⟩ := pb
          by_cases hft' : ft' = t'
          · simp [hoverStep, hoverFire, hst, hft'] at htimer
          · simpa [hoverStep, hoverFire, hst, hft'] using htimer

/-- C6: every enter/leave event of `useElementHover` cancels the pending
scheduled transition before it fires (the old timer is cleared regardless of
its content); when the relevant delay is 0 the state is applied immediately
with no timer; and over any event sequence started from the initial state, a
timer-driven flip to `true` at time `t` means the last enter/leave event was
an enter at some `t0` with `t = t0 + delayEnter` (so no earlier than
`delayEnter` after the last enter, with no intervening leave), and a
timer-driven flip to `false` likewise fires exactly `delayLeave` after the
last leave. -/
theorem useElementHover_delays (o : HoverOptions) :
    (∀ (now : Nat) (s : HoverState) (entering : Bool),
      toggle o now s entering
        = toggle o now { isHovered := s.isHovered, timer := none } entering) ∧
    (∀ (now : Nat) (s : HoverState) (entering : Bool),
      delayFor o entering = 0 →
      (toggle o now s entering).isHovered = entering ∧
      (toggle o now s entering).timer = none) ∧
    (∀ (evs : List HoverEvent) (t : Nat),
      (hoverRun o initHover evs).isHovered = false →
      (hoverRun o initHover (evs ++ [HoverEvent.fire t])).isHovered = true →
      ∃ t0, lastToggle evs = some (t0, true) ∧ t = t0 + o.delayEnter) ∧
    (∀ (evs : List HoverEvent) (t : Nat),
      (hoverRun o initHover evs).isHovered = true →
      (hoverRun o initHover (evs ++ [HoverEvent.fire t])).isHovered = false →
      ∃ t0, lastToggle evs = some (t0, false) ∧ t = t0 + o.delayLeave) := by
  refine ⟨fun now s entering => rfl, ?_, ?_, ?_⟩
  · intro now s entering hd
    simp [toggle, hd]
  · intro evs t h0 h1
    rw [hoverRun_snoc] at h1
    cases hst : (hoverRun o initHover evs).timer with
    | none =>
      rw [show (hoverStep o (hoverRun o initHover evs) (HoverEvent.fire t)).isHovered
            = (hoverRun o initHover evs).isHovered by
          simp [hoverStep, hoverFire, hst]] at h1
      rw [h0] at h1
      cases h1
    | some pb =>
      obtain ⟨ft, b⟩ := pb
      by_cases hft : ft = t
      · subst hft
        have hb : b = true := by
          simpa [hoverStep, hoverFire, hst] using h1
        subst hb
        rcases hoverRun_timer_inv o evs initHover ft true hst with
          ⟨t0, hlt, hval⟩ | ⟨_, hinit⟩
        · exact ⟨t0, hlt, by simpa [delayFor] using hval⟩
        · simp [initHover] at hinit
      · rw [show (hoverStep o (hoverRun o initHover evs) (HoverEvent.fire t)).isHovered
            = (hoverRun o initHover evs).isHovered by
            simp [hoverStep, hoverFire, hst, hft]] at h1
        rw [h0] at h1
        cases h1
  · intro evs t h0 h1
    rw [hoverRun_snoc] at h1
    cases hst : (hoverRun o initHover evs).timer with
    | none =>
      rw [show (hoverStep o (hoverRun o initHover evs) (HoverEvent.fire t)).isHovered
            = (hoverRun o initHover evs).isHovered by
          simp [hoverStep, hoverFire, hst]] at h1
      rw [h0] at h1
      cases h1
    | some pb =>
      obtain ⟨ft, b⟩ := pb
      by_cases hft : ft = t
      · subst hft
        have hb : b = false := by
          simpa [hoverStep, hoverFire, hst] using h1
        subst hb
        rcases hoverRun_timer_inv o evs initHover ft false hst with
          ⟨t0, hlt, hval⟩ | ⟨_, hinit⟩
        · exact ⟨t0, hlt, by simpa [delayFor] using hval⟩
        · simp [initHover] at hinit
      · rw [show (hoverStep o (hoverRun o initHover evs) (HoverEvent.fire t)).isHovered
            = (hoverRun o initHover evs).isHovered by
            simp [hoverStep, hoverFire, hst, hft]] at h1
        rw [h0] at h1
        cases h1

/-- Witness for C6: with delays (2, 3), an enter at 5 leaves the state false,
and the timer flip at 7 implies the last toggle was that enter with
7 = 5 + delayEnter. -/
theorem useElementHover_delays_witness :
    ∃ t0, lastToggle [HoverEvent.enter 5] = some (t0, true) ∧
      7 = t0 + ({ delayEnter := 2, delayLeave := 3 } : HoverOptions).delayEnter :=
  (useElementHover_delays { delayEnter := 2, delayLeave := 3 }).2.2.1
    [HoverEvent.enter 5] 7 (by decide) (by decide)

end Vueuse
